import Mathlib

/-!
Verification development for the ski-run-scraper repository.

This file gives a shallow embedding of the scrape-eligibility decision
engine, the season/calendar logic, the grooming-streak and day-of-week
statistics, the lift operating-window detector, the run-scoped terrain
aggregate, and (modelled from the documentation, since database.js is not
part of the sources) the insert-or-replace relational ingest.  Machine
integers of JavaScript are modelled by Nat/Int (the values in play are
far below 2^53, where JS number arithmetic is exact); date strings are
compared through their character lists, which coincides with the
codepoint order used by localeCompare on ASCII ISO dates; the stable
Array.prototype.sort with a comparator is modelled by insertion sort,
which is stable; the date-fns-tz timezone conversions are modelled by a
fixed-offset timezone (minutes east of UTC) and proleptic-Gregorian
civil-date arithmetic.
-/

namespace SkiRun

/-- Calendar date as the triple a JS Date holds for a civil day.  The year
is an Int because the season logic computes currentYear - 1. -/
structure Date where
  year : Int
  month : Nat
  day : Nat
deriving DecidableEq, Repr

/-- Comparison of two civil dates.  JS compares Date objects by their
timestamp; for dates built as new Date(y, m-1, d) from calendar-valid
components this order is exactly the lexicographic order on (y, m, d). -/
def dateLtB (a b : Date) : Bool :=
  a.year < b.year ||
    (a.year == b.year && (a.month < b.month || (a.month == b.month && a.day < b.day)))

/-- Non-strict date comparison, as used for currentDate >= seasonStartDate. -/
def dateLeB (a b : Date) : Bool :=
  a == b || dateLtB a b

/-- Day number of a civil date, counted from 0000-03-01 of the proleptic
Gregorian calendar (the civil-from-days construction of Howard Hinnant,
shifted so that all quantities stay in Nat).  Valid for CE dates, which
covers every date the scraper manipulates. -/
def daysFromCivil (d : Date) : Nat :=
  let y : Nat := d.year.toNat
  let yShift : Nat := if d.month ≤ 2 then y - 1 else y
  let era : Nat := yShift / 400
  let yoe : Nat := yShift % 400
  let mp : Nat := if d.month > 2 then d.month - 3 else d.month + 9
  let doy : Nat := (153 * mp + 2) / 5 + d.day - 1
  era * 146097 + yoe * 365 + yoe / 4 - yoe / 100 + doy

/-- Civil date of a day number (inverse of daysFromCivil on its range). -/
def civilFromDays (z : Nat) : Date :=
  let era : Nat := z / 146097
  let doe : Nat := z % 146097
  let yoe : Nat := (doe - doe / 1460 + doe / 36524 - doe / 146096) / 365
  let y : Nat := yoe + era * 400
  let doy : Nat := doe - (365 * yoe + yoe / 4 - yoe / 100)
  let mp : Nat := (5 * doy + 2) / 153
  let d : Nat := doy - (153 * mp + 2) / 5 + 1
  let m : Nat := if mp < 10 then mp + 3 else mp - 9
  ⟨if m ≤ 2 then (y : Int) + 1 else (y : Int), m, d⟩

/-- An instant: minutes elapsed since 0000-03-01T00:00 UTC.  This is the
"now" every utility of the scraper derives its values from. -/
abbrev Minutes := Nat

/-- A resort timezone, modelled as a fixed offset in minutes east of UTC
(negative for the US mountain zones the scraper serves). -/
structure Timezone where
  offsetMin : Int
deriving DecidableEq, Repr

/-- Wall-clock minutes of an instant in a timezone, as a signed count. -/
def localMinutes (t : Minutes) (tz : Timezone) : Int :=
  (t : Int) + tz.offsetMin

/-- Day number of the resort-local day of an instant.  Int division here
is Euclidean division, which for the positive divisor 1440 agrees with
the floor division that wall-clock conversion performs. -/
def localDayNumber (t : Minutes) (tz : Timezone) : Int :=
  localMinutes t tz / 1440

/-- Embedding of getResortLocalDate: the current date, formatted in the
resort timezone (formatInTimeZone with pattern yyyy-MM-dd). -/
def getResortLocalDate (t : Minutes) (tz : Timezone) : Date :=
  civilFromDays (localDayNumber t tz).toNat

/-- Embedding of getResortLocalHour: the current hour 0-23 in the resort
timezone (formatInTimeZone with pattern H). -/
def getResortLocalHour (t : Minutes) (tz : Timezone) : Nat :=
  (localMinutes t tz % 1440).toNat / 60

/-- Embedding of getTodayDate: new Date().toISOString().split('T')[0],
i.e. the current UTC date, not a resort-local date. -/
def getTodayDate (t : Minutes) : Date :=
  civilFromDays (t / 1440)

/-- The two snapshot kinds the eligibility engine decides over. -/
inductive DataType
  | terrain
  | snow
deriving DecidableEq, Repr

/-- Per-resort configuration entry (config.json resorts[]).  Option
models a JS field that may be absent; for the url fields isSome models
JS truthiness of a configured non-empty url string. -/
structure Resort where
  key : String
  name : String
  timezone : Timezone
  terrainUrl : Option String
  url : Option String
  snowReportUrl : Option String
  seasonStart : Option (Nat × Nat)
  seasonEnd : Option (Nat × Nat)
  targetHour : Option Nat
deriving DecidableEq, Repr

/-- Global schedule configuration (config.json schedule).  Season bounds
are (month, day) pairs, the parsed form of the MM-DD strings. -/
structure Schedule where
  defaultSeasonStart : Nat × Nat
  defaultSeasonEnd : Nat × Nat
  targetHour : Nat
  scrapingWindowHours : Nat
  checkIntervalHours : Nat
deriving DecidableEq, Repr

/-- Season start bound a resort resolves to: resort.seasonStart or the
configured default (the JS fallback with the || operator). -/
def seasonStartBound (cfg : Schedule) (r : Resort) : Nat × Nat :=
  r.seasonStart.getD cfg.defaultSeasonStart

/-- Season end bound a resort resolves to. -/
def seasonEndBound (cfg : Schedule) (r : Resort) : Nat × Nat :=
  r.seasonEnd.getD cfg.defaultSeasonEnd

/-- Season start date as isResortInSeason resolves it at a given
resort-local date: the start year is the current local year when
currentMonth >= startMonth and the previous year otherwise. -/
def resolvedSeasonStartDate (cfg : Schedule) (r : Resort) (localDate : Date) : Date :=
  let sb := seasonStartBound cfg r
  ⟨if localDate.month ≥ sb.1 then localDate.year else localDate.year - 1, sb.1, sb.2⟩

/-- Season end date as isResortInSeason resolves it at a given
resort-local date: the end year is currentYear + 1 when
currentMonth >= startMonth and currentYear otherwise, i.e. always the
season-start year plus one. -/
def resolvedSeasonEndDate (cfg : Schedule) (r : Resort) (localDate : Date) : Date :=
  let sb := seasonStartBound cfg r
  let eb := seasonEndBound cfg r
  ⟨if localDate.month ≥ sb.1 then localDate.year + 1 else localDate.year, eb.1, eb.2⟩

/-- Core of isResortInSeason (ski-scraper.js lines 95-128, and the
identical copy in lift-scraper.js lines 52-82), as a function of the
already-computed resort-local date:
seasonStartDate <= currentDate < seasonEndDate with the year pivot on
the start month. -/
def isResortInSeasonOn (cfg : Schedule) (r : Resort) (localDate : Date) : Bool :=
  dateLeB (resolvedSeasonStartDate cfg r localDate) localDate &&
    dateLtB localDate (resolvedSeasonEndDate cfg r localDate)

/-- Embedding of isResortInSeason: the date logic applied to the current
resort-local date. -/
def isResortInSeason (cfg : Schedule) (r : Resort) (t : Minutes) : Bool :=
  isResortInSeasonOn cfg r (getResortLocalDate t r.timezone)

/-- A snapshot file on disk, identified by resort key, data kind and the
date in its file name (data/{key}/{kind}/{date}.json). -/
abbrev FileKey := String × DataType × Date

/-- The set of snapshot files that exist, as a list of keys. -/
abbrev Store := List FileKey

/-- Embedding of hasBeenScrapedToday: a snapshot file named by the
resort-local date exists for this resort and data kind. -/
def hasBeenScrapedToday (store : Store) (r : Resort) (dataType : DataType)
    (t : Minutes) : Bool :=
  decide ((r.key, dataType, getResortLocalDate t r.timezone) ∈ store)

/-- Effective target hour: resort.targetHour when the field is present
(the code tests !== undefined, so a configured 0 counts), else the
schedule default. -/
def effectiveTargetHour (cfg : Schedule) (r : Resort) : Nat :=
  r.targetHour.getD cfg.targetHour

/-- Url check shouldScrapeResort performs for a data kind: terrain uses
only resort.terrainUrl (the legacy url field is not consulted here; it
is consulted only later, by scrapeResort), snow uses snowReportUrl. -/
def hasUrlForKind (r : Resort) (dataType : DataType) : Bool :=
  match dataType with
  | .terrain => r.terrainUrl.isSome
  | .snow => r.snowReportUrl.isSome

/-- Embedding of shouldScrapeResort (ski-scraper.js lines 160-175):
in season, has url for the kind, no snapshot for the resort-local date,
and the resort-local hour is at or past the effective target hour. -/
def shouldScrapeResort (cfg : Schedule) (r : Resort) (dataType : DataType)
    (store : Store) (t : Minutes) : Bool :=
  let currentHour := getResortLocalHour t r.timezone
  let targetHour := effectiveTargetHour cfg r
  let hasBeenScraped := hasBeenScrapedToday store r dataType t
  let inSeason := isResortInSeason cfg r t
  let hasUrl := hasUrlForKind r dataType
  inSeason && hasUrl && !hasBeenScraped && decide (targetHour ≤ currentHour)

/-- Embedding of isInScrapingWindow (advisory only; not consulted by
shouldScrapeResort): local hour in [targetHour, targetHour + window). -/
def isInScrapingWindow (cfg : Schedule) (r : Resort) (t : Minutes) : Bool :=
  let currentHour := getResortLocalHour t r.timezone
  let targetHour := effectiveTargetHour cfg r
  decide (targetHour ≤ currentHour) &&
    decide (currentHour < targetHour + cfg.scrapingWindowHours)

/-- File-creation effect of saveResortData (ski-scraper.js lines 336-346):
the terrain snapshot is written under getTodayDate(), which is the UTC
date of the instant, not the resort-local date. -/
def saveResortDataStore (store : Store) (r : Resort) (t : Minutes) : Store :=
  (r.key, DataType.terrain, getTodayDate t) :: store

/-- A row of the terrain_status table as the statistics code reads it:
SELECT date, status, grooming_status, grooming_type.  Option String
models a nullable text column; JS truthiness of such a value is
non-null and non-empty. -/
structure TrailRecord where
  date : String
  status : Option String
  grooming_status : Option String
  grooming_type : Option String
deriving DecidableEq, Repr

/-- JS truthiness of a nullable string value. -/
def truthyStr : Option String → Bool
  | none => false
  | some s => !s.data.isEmpty

/-- Order used by records.sort((a, b) => b.date.localeCompare(a.date)):
a may precede b when b.date <= a.date.  Date strings are compared by
their character lists, which is the codepoint order localeCompare
induces on ASCII ISO dates. -/
def recordDescOrder (a b : TrailRecord) : Prop :=
  b.date.data ≤ a.date.data

instance : DecidableRel recordDescOrder :=
  fun a b => inferInstanceAs (Decidable (b.date.data ≤ a.date.data))

instance : IsTotal TrailRecord recordDescOrder :=
  ⟨fun a b => le_total b.date.data a.date.data⟩

instance : IsTrans TrailRecord recordDescOrder :=
  ⟨fun _ _ _ hab hbc => le_trans hbc hab⟩

/-- Sort records most recent date first.  Array.prototype.sort is a
stable comparator sort, modelled by stable insertion sort. -/
def sortByDateDesc (records : List TrailRecord) : List TrailRecord :=
  records.insertionSort recordDescOrder

/-- First loop of calculateGroomingStreaks: the date of the first row,
in descending order, with a truthy grooming status. -/
def lastGroomedLoop : List TrailRecord → Option String
  | [] => none
  | r :: rs => if truthyStr r.grooming_status then some r.date else lastGroomedLoop rs

/-- Second loop of calculateGroomingStreaks: count rows from the top of
the descending-sorted list until the first row whose grooming status is
not truthy. -/
def currentStreakLoop : List TrailRecord → Nat
  | [] => 0
  | r :: rs => if truthyStr r.grooming_status then currentStreakLoop rs + 1 else 0

/-- Third loop of calculateGroomingStreaks, run over the reversed
(chronologically ascending) list with a running and a best counter. -/
def longestStreakLoop : List TrailRecord → Nat → Nat → Nat
  | [], _, longest => longest
  | r :: rs, temp, longest =>
      if truthyStr r.grooming_status then
        longestStreakLoop rs (temp + 1) (max longest (temp + 1))
      else
        longestStreakLoop rs 0 longest

/-- Result record of calculateGroomingStreaks. -/
structure GroomingStreaks where
  currentStreak : Nat
  longestStreak : Nat
  lastGroomedDate : Option String
deriving DecidableEq, Repr

/-- Embedding of calculateGroomingStreaks (ski-scraper.js lines 725-766;
generate-trail-data.js lines 68-109 is an identical copy). -/
def calculateGroomingStreaks (records : List TrailRecord) : GroomingStreaks :=
  if records.isEmpty then ⟨0, 0, none⟩
  else
    let sorted := sortByDateDesc records
    { currentStreak := currentStreakLoop sorted
      longestStreak := longestStreakLoop sorted.reverse 0 0
      lastGroomedDate := lastGroomedLoop sorted }

/-- Math.round((g / t) * 100) with a zero guard, computed in exact
rational arithmetic: floor(100 g / t + 1/2).  The JS code computes the
ratio in binary floating point; all claims below depend only on this
being a function of the two counts. -/
def jsRoundPct (groomed total : Nat) : Nat :=
  if total = 0 then 0 else (200 * groomed + total) / (2 * total)

/-- One entry of the day-of-week statistics array. -/
structure DayOfWeekStat where
  day : String
  percentage : Nat
  groomed : Nat
  total : Nat
deriving DecidableEq, Repr

/-- The seven bucket labels, Sunday first, as date.getDay() indexes them. -/
def daysOfWeek : List String :=
  ["Sun", "Mon", "Tue", "Wed", "Thu", "Fri", "Sat"]

/-- One step of the counting loop: add a record with day index i to the
per-day (groomed, total) counters. -/
def bumpCounts (counts : Nat → Nat × Nat) (i : Nat) (isGroomed : Bool) :
    Nat → Nat × Nat :=
  fun j =>
    if j = i then ((counts i).1 + (if isGroomed then 1 else 0), (counts i).2 + 1)
    else counts j

/-- The records.forEach counting loop of calculateDayOfWeekStats, with
the day-index computation (the only point where the two copies of the
function differ) passed in as a parameter. -/
def tallyDayOfWeek (dayIndex : TrailRecord → Nat) (records : List TrailRecord) :
    Nat → Nat × Nat :=
  records.foldl
    (fun counts r => bumpCounts counts (dayIndex r) (truthyStr r.grooming_status))
    (fun _ => (0, 0))

/-- Common shape of both calculateDayOfWeekStats implementations: tally
per weekday, then emit the seven stats entries. -/
def calculateDayOfWeekStatsWith (dayIndex : TrailRecord → Nat)
    (records : List TrailRecord) : List DayOfWeekStat :=
  let counts := tallyDayOfWeek dayIndex records
  (List.range 7).map fun i =>
    { day := daysOfWeek.getD i ""
      percentage := jsRoundPct (counts i).1 (counts i).2
      groomed := (counts i).1
      total := (counts i).2 }

/-- Numeric value of an ASCII digit character. -/
def digitVal (c : Char) : Nat :=
  c.toNat - 48

/-- Parse of a YYYY-MM-DD string into a civil date (the format of every
date column value the statistics code reads). -/
def parseISODate (s : String) : Date :=
  match s.data with
  | [y1, y2, y3, y4, _, m1, m2, _, d1, d2] =>
      ⟨Int.ofNat (digitVal y1 * 1000 + digitVal y2 * 100 + digitVal y3 * 10 + digitVal y4),
        digitVal m1 * 10 + digitVal m2,
        digitVal d1 * 10 + digitVal d2⟩
  | _ => ⟨1970, 1, 1⟩

/-- Day index in ski-scraper.js: new Date(record.date) parses the ISO
date as UTC midnight, and getDay() then reports the weekday of that
instant in the host-process timezone (offset hostOff minutes east of
UTC).  Day number 0 of the civil count is a Wednesday, hence the +3. -/
def dayIndexUTCParse (hostOff : Int) (s : String) : Nat :=
  let n : Int := Int.ofNat (daysFromCivil (parseISODate s))
  (((n * 1440 + hostOff) / 1440 + 3) % 7).toNat

/-- Day index in generate-trail-data.js: new Date(record.date +
'T00:00:00') parses as host-local midnight, so getDay() reports the
weekday of the written date itself, for every host timezone. -/
def dayIndexLocalParse (s : String) : Nat :=
  ((Int.ofNat (daysFromCivil (parseISODate s)) + 3) % 7).toNat

/-- Embedding of calculateDayOfWeekStats from ski-scraper.js lines
771-790, for a host process whose timezone offset is hostOff minutes. -/
def calculateDayOfWeekStatsSki (hostOff : Int) (records : List TrailRecord) :
    List DayOfWeekStat :=
  calculateDayOfWeekStatsWith (fun r => dayIndexUTCParse hostOff r.date) records

/-- Embedding of calculateDayOfWeekStats from generate-trail-data.js
lines 114-133. -/
def calculateDayOfWeekStatsGen (records : List TrailRecord) : List DayOfWeekStat :=
  calculateDayOfWeekStatsWith (fun r => dayIndexLocalParse r.date) records

/-- daysTracked of generateTrailData: rows.length. -/
def daysTracked (records : List TrailRecord) : Nat :=
  records.length

/-- daysGroomed of generateTrailData: rows with truthy grooming status. -/
def daysGroomed (records : List TrailRecord) : Nat :=
  (records.filter fun r => truthyStr r.grooming_status).length

/-- groomingPercentage of generateTrailData. -/
def groomingPercentage (records : List TrailRecord) : Nat :=
  jsRoundPct (daysGroomed records) (daysTracked records)

/-- Day number of an ISO date string, for reasoning about calendar gaps. -/
def dayNumberOfDateString (s : String) : Nat :=
  daysFromCivil (parseISODate s)

/-- Helper for specCurrentStreak: extend the streak only while each next
row is groomed and dated exactly one calendar day before the previous. -/
def specGapAwareLoop (prev : TrailRecord) : List TrailRecord → Nat
  | [] => 0
  | r :: rs =>
      if truthyStr r.grooming_status &&
          (dayNumberOfDateString r.date + 1 == dayNumberOfDateString prev.date) then
        1 + specGapAwareLoop r rs
      else 0

/-- Modelled from the spec: the current-streak reading of spec section
4.5 step 3, under which a gap in calendar dates between successive rows
breaks the streak exactly as an ungroomed day does.  This definition
exists only to be compared against calculateGroomingStreaks. -/
def specCurrentStreak (records : List TrailRecord) : Nat :=
  match sortByDateDesc records with
  | [] => 0
  | r :: rs => if truthyStr r.grooming_status then 1 + specGapAwareLoop r rs else 0

/-- A lift entry of the terrain feed, as getLiftOperatingWindow reads
it: optional configured open and close wall-clock times, parsed from
their HH:mm strings into (hour, minute); none models a missing or
falsy value, which filter(Boolean) drops. -/
structure Lift where
  name : String
  openTime : Option (Nat × Nat)
  closeTime : Option (Nat × Nat)
deriving DecidableEq, Repr

/-- Embedding of timeToMinutes on a parsed HH:mm value. -/
def timeToMinutes (t : Nat × Nat) : Nat :=
  t.1 * 60 + t.2

/-- The reason field of the operating-window result, one constructor per
string the source builds: 'No lift data available', 'No operating hours
available', 'Within operating hours', and the interpolated 'Outside
operating hours (...)' message. -/
inductive WindowReason
  | noLiftData
  | noOperatingHours
  | withinHours
  | outsideHours
deriving DecidableEq, Repr

/-- Result of getLiftOperatingWindow.  Open and close times are kept in
minutes since local midnight; the source renders them back to HH:mm
strings, a bijective formatting step. -/
structure OperatingWindow where
  isOpen : Bool
  openTime : Option Nat
  closeTime : Option Nat
  reason : WindowReason
deriving DecidableEq, Repr

/-- Math.min over a spread list: none on an empty list (the source never
reaches that case past its length check). -/
def jsMathMin : List Nat → Option Nat
  | [] => none
  | x :: xs => some (xs.foldl min x)

/-- Math.max over a spread list. -/
def jsMathMax : List Nat → Option Nat
  | [] => none
  | x :: xs => some (xs.foldl max x)

/-- The open times configured across a lift list, in minutes:
lifts.map(l => l.OpenTime).filter(Boolean).map(timeToMinutes). -/
def openTimesOf (lifts : List Lift) : List Nat :=
  (lifts.filterMap Lift.openTime).map timeToMinutes

/-- The close times configured across a lift list, in minutes. -/
def closeTimesOf (lifts : List Lift) : List Nat :=
  (lifts.filterMap Lift.closeTime).map timeToMinutes

/-- Embedding of getLiftOperatingWindow (lift-scraper.js lines 97-135),
with the current resort-local time passed as minutes since midnight. -/
def getLiftOperatingWindow (lifts : List Lift) (currentMinutes : Nat) :
    OperatingWindow :=
  if lifts.isEmpty then ⟨false, none, none, .noLiftData⟩
  else
    let openTimes := openTimesOf lifts
    let closeTimes := closeTimesOf lifts
    if openTimes.isEmpty || closeTimes.isEmpty then
      ⟨false, none, none, .noOperatingHours⟩
    else
      let minOpenMinutes := (jsMathMin openTimes).getD 0
      let maxCloseMinutes := (jsMathMax closeTimes).getD 0
      let isOpen :=
        decide (minOpenMinutes ≤ currentMinutes) &&
          decide (currentMinutes ≤ maxCloseMinutes)
      ⟨isOpen, some minOpenMinutes, some maxCloseMinutes,
        if isOpen then .withinHours else .outsideHours⟩

/-- Modelled from the spec: a flattened terrain item (a trail or a lift
of some grooming area) as the relational ingest reads it.  The
database.js module is not among the sources; this and the definitions
through ingestTerrain follow spec section 4.4 and the DATABASE.md
schema. -/
structure TerrainItem where
  name : String
  status : Option String
  grooming_status : Option String
  grooming_type : Option String
deriving DecidableEq, Repr

/-- Modelled from the spec: one grooming area with its trails and lifts. -/
structure GroomingArea where
  name : String
  trails : List TerrainItem
  lifts : List TerrainItem
deriving DecidableEq, Repr

/-- Modelled from the spec: a row of the terrain_status table
(DATABASE.md), whose uniqueness key is (resort_id, date, item_name). -/
structure TerrainStatusRow where
  resort_id : Nat
  date : String
  item_name : String
  item_type : String
  status : Option String
  grooming_status : Option String
  grooming_type : Option String
deriving DecidableEq, Repr

/-- Uniqueness key of a terrain_status row. -/
abbrev RowKey := Nat × String × String

/-- Key projection UNIQUE(resort_id, date, item_name). -/
def rowKey (r : TerrainStatusRow) : RowKey :=
  (r.resort_id, r.date, r.item_name)

/-- Modelled from the spec: flatten every trail and lift across every
grooming area of a payload into terrain_status rows for one resort and
date. -/
def flattenTerrainPayload (resortId : Nat) (date : String)
    (areas : List GroomingArea) : List TerrainStatusRow :=
  areas.flatMap fun a =>
    (a.trails.map fun i =>
      ⟨resortId, date, i.name, "trail", i.status, i.grooming_status, i.grooming_type⟩) ++
    (a.lifts.map fun i =>
      ⟨resortId, date, i.name, "lift", i.status, i.grooming_status, i.grooming_type⟩)

/-- Modelled from the spec: INSERT OR REPLACE of one row under the
UNIQUE(resort_id, date, item_name) constraint — any existing row with
the same key is replaced, never duplicated. -/
def insertOrReplace (table : List TerrainStatusRow) (row : TerrainStatusRow) :
    List TerrainStatusRow :=
  (table.filter fun r => !(decide (rowKey r = rowKey row))) ++ [row]

/-- Modelled from the spec: saveTerrainStatus ingests a payload by
insert-or-replacing every flattened item row. -/
def ingestTerrain (table : List TerrainStatusRow) (resortId : Nat) (date : String)
    (areas : List GroomingArea) : List TerrainStatusRow :=
  (flattenTerrainPayload resortId date areas).foldl insertOrReplace table

/-- Number of rows of the table holding a given key. -/
def countKey (table : List TerrainStatusRow) (k : RowKey) : Nat :=
  table.countP fun r => decide (rowKey r = k)

/-- Terrain payload carried by a scrape result (opaque to the aggregate
logic beyond being present). -/
abbrev TerrainPayload := List GroomingArea

/-- Result object of scrapeResort for one resort: terrain and snow each
carry the saved date and (for terrain) the payload when that scrape
succeeded, and are null otherwise. -/
structure ScrapeOutcome where
  resortKey : String
  terrain : Option (Date × TerrainPayload)
  snow : Option Date
deriving DecidableEq, Repr

/-- One entry of data/latest.json. -/
structure LatestEntry where
  date : Date
  name : String
  data : TerrainPayload
deriving DecidableEq, Repr

/-- Body of the scrapedData.forEach loop of generateLatestFile: a result
that carries terrain data sets the aggregate entry under its resort key,
any other result leaves the object unchanged. -/
def updLatest (resortNames : String → String) (latest : String → Option LatestEntry)
    (result : ScrapeOutcome) : String → Option LatestEntry :=
  match result.terrain with
  | some td =>
      fun k =>
        if k = result.resortKey then
          some ⟨td.1, resortNames result.resortKey, td.2⟩
        else latest k
  | none => latest

/-- Embedding of generateLatestFile (ski-scraper.js lines 592-608): build
the aggregate object from the current run only, one entry per result
that carries terrain data; resortNames is the RESORTS name lookup. -/
def generateLatestFile (resortNames : String → String)
    (scrapedData : List ScrapeOutcome) : String → Option LatestEntry :=
  scrapedData.foldl (updLatest resortNames) (fun _ => none)

/-- Aggregate step of main (ski-scraper.js lines 1045-1053): when at
least one resort was scraped this run, data/latest.json is overwritten
with the run-scoped aggregate; otherwise the existing file is left
unchanged. -/
def mainAggregateStep (prev : String → Option LatestEntry)
    (resortNames : String → String) (scrapedData : List ScrapeOutcome) :
    String → Option LatestEntry :=
  if scrapedData.length > 0 then generateLatestFile resortNames scrapedData else prev

/-! Helper lemmas about date comparison. -/

theorem dateLtB_irrefl (d : Date) : dateLtB d d = false := by
  simp [dateLtB]

theorem dateLeB_refl (d : Date) : dateLeB d d = true := by
  simp [dateLeB]

theorem dateLtB_of_year_lt {a b : Date} (h : a.year < b.year) : dateLtB a b = true := by
  simp [dateLtB, h]

/-- Claim C2: isResortInSeason is start-inclusive and end-exclusive: at a
resort-local date equal to the resolved season start date it returns
true, and at a resort-local date equal to the resolved season end date
it returns false.  (The date logic is shared verbatim by ski-scraper.js
and lift-scraper.js.) -/
theorem isResortInSeason_start_incl_end_excl (cfg : Schedule) (r : Resort) (d : Date) :
    (d = resolvedSeasonStartDate cfg r d → isResortInSeasonOn cfg r d = true) ∧
    (d = resolvedSeasonEndDate cfg r d → isResortInSeasonOn cfg r d = false) := by
  constructor
  · intro h
    have hm : d.month = (seasonStartBound cfg r).1 := congrArg Date.month h
    have hend : (resolvedSeasonEndDate cfg r d).year = d.year + 1 := by
      simp [resolvedSeasonEndDate, hm.ge]
    have hlt : dateLtB d (resolvedSeasonEndDate cfg r d) = true := by
      apply dateLtB_of_year_lt
      omega
    unfold isResortInSeasonOn
    rw [h.symm, dateLeB_refl, hlt]
    rfl
  · intro h
    unfold isResortInSeasonOn
    rw [h.symm, dateLtB_irrefl, Bool.and_false]

/-- Witness for C2 at the default November-to-May season: the first of
November 2024 is in season, the first of May 2025 is not. -/
def cfgNov : Schedule := ⟨(11, 1), (5, 1), 7, 3, 2⟩

def resortPlain : Resort :=
  ⟨"vail", "Vail", ⟨-420⟩, some "https://terrain", none, some "https://snow",
    none, none, none⟩

theorem isResortInSeason_boundary_witness :
    isResortInSeasonOn cfgNov resortPlain ⟨2024, 11, 1⟩ = true ∧
    isResortInSeasonOn cfgNov resortPlain ⟨2025, 5, 1⟩ = false :=
  ⟨(isResortInSeason_start_incl_end_excl cfgNov resortPlain ⟨2024, 11, 1⟩).1 (by decide),
    (isResortInSeason_start_incl_end_excl cfgNov resortPlain ⟨2025, 5, 1⟩).2 (by decide)⟩

/-- Configuration whose season starts and ends inside one calendar year
(June through September), the case claim C3 asserts the code handles
with a matching end year. -/
def cfgSummer : Schedule := ⟨(6, 1), (9, 30), 7, 3, 2⟩

/-- Counterexample to claim C3: for a season configured within one
calendar year (start 06-01, end 09-30, so endMonth >= startMonth) at
local date 2025-07-01, the code still resolves the season end year to
the start year plus one (2026, not 2025), so "end year = start year + 1
exactly when endMonth < startMonth" is false; behaviorally, 2025-10-15
is still reported in season though it is past 2025-09-30. -/
theorem seasonEndYear_not_conditional_cex :
    ¬ (((resolvedSeasonEndDate cfgSummer resortPlain ⟨2025, 7, 1⟩).year =
          (resolvedSeasonStartDate cfgSummer resortPlain ⟨2025, 7, 1⟩).year + 1) ↔
        (seasonEndBound cfgSummer resortPlain).1 < (seasonStartBound cfgSummer resortPlain).1) ∧
    isResortInSeasonOn cfgSummer resortPlain ⟨2025, 10, 15⟩ = true := by
  constructor
  · decide
  · decide

/-- Claim C3 as amended: the season-start year follows the half-year
pivot on the start month, and the season-end year is always the
season-start year plus one, whether or not the season wraps a calendar
year boundary. -/
theorem seasonYears_resolution (cfg : Schedule) (r : Resort) (d : Date) :
    (resolvedSeasonStartDate cfg r d).year =
      (if d.month ≥ (seasonStartBound cfg r).1 then d.year else d.year - 1) ∧
    (resolvedSeasonEndDate cfg r d).year = (resolvedSeasonStartDate cfg r d).year + 1 ∧
    isResortInSeasonOn cfg r d =
      (dateLeB (resolvedSeasonStartDate cfg r d) d &&
        dateLtB d (resolvedSeasonEndDate cfg r d)) := by
  refine ⟨rfl, ?_, rfl⟩
  by_cases hc : (seasonStartBound cfg r).1 ≤ d.month
  · simp [resolvedSeasonEndDate, resolvedSeasonStartDate, hc]
  · simp only [resolvedSeasonEndDate, resolvedSeasonStartDate, ge_iff_le, if_neg hc]
    omega

/-! Helper lemmas about local time. -/

theorem getResortLocalDate_eq_of_dayNumber {t t' : Minutes} {tz : Timezone}
    (hd : localDayNumber t tz = localDayNumber t' tz) :
    getResortLocalDate t tz = getResortLocalDate t' tz := by
  unfold getResortLocalDate
  rw [hd]

theorem getResortLocalHour_mono {t t' : Minutes} (tz : Timezone) (h : t ≤ t')
    (hd : localDayNumber t tz = localDayNumber t' tz) :
    getResortLocalHour t tz ≤ getResortLocalHour t' tz := by
  have hle : localMinutes t tz ≤ localMinutes t' tz := by
    unfold localMinutes
    exact add_le_add_right (by exact_mod_cast h) _
  have e1 := Int.emod_def (localMinutes t tz) 1440
  have e2 := Int.emod_def (localMinutes t' tz) 1440
  have hdd : localMinutes t tz / 1440 = localMinutes t' tz / 1440 := hd
  have hmod : localMinutes t tz % 1440 ≤ localMinutes t' tz % 1440 := by omega
  exact Nat.div_le_div_right (Int.toNat_le_toNat hmod)

/-- Claim C1 as amended: shouldScrapeResort is exactly the conjunction
in-season AND url-for-kind AND not-scraped-today AND
local-hour >= effective-target-hour, where the url check for terrain
consults only the terrainUrl field (not the legacy url field); the
decision never reads scrapingWindowHours; and it is monotone in the
hour: once true, it stays true at any later instant of the same
resort-local day over an unchanged store (catch-up semantics). -/
theorem shouldScrape_eligibility (cfg : Schedule) (r : Resort) (dataType : DataType)
    (store : Store) (t : Minutes) :
    (shouldScrapeResort cfg r dataType store t =
      (isResortInSeason cfg r t && hasUrlForKind r dataType &&
        !hasBeenScrapedToday store r dataType t &&
        decide (effectiveTargetHour cfg r ≤ getResortLocalHour t r.timezone))) ∧
    (∀ w, shouldScrapeResort
        ⟨cfg.defaultSeasonStart, cfg.defaultSeasonEnd, cfg.targetHour, w,
          cfg.checkIntervalHours⟩ r dataType store t
        = shouldScrapeResort cfg r dataType store t) ∧
    (∀ t', t ≤ t' → localDayNumber t r.timezone = localDayNumber t' r.timezone →
      shouldScrapeResort cfg r dataType store t = true →
      shouldScrapeResort cfg r dataType store t' = true) := by
  refine ⟨rfl, fun w => rfl, fun t' hle hday htrue => ?_⟩
  have hdate : getResortLocalDate t r.timezone = getResortLocalDate t' r.timezone :=
    getResortLocalDate_eq_of_dayNumber hday
  have hhour := getResortLocalHour_mono r.timezone hle hday
  simp only [shouldScrapeResort, Bool.and_eq_true, Bool.not_eq_true',
    decide_eq_true_eq] at htrue ⊢
  obtain ⟨⟨⟨hseason, hurl⟩, hscr⟩, htgt⟩ := htrue
  refine ⟨⟨⟨?_, hurl⟩, ?_⟩, ?_⟩
  · unfold isResortInSeason at hseason ⊢
    rw [← hdate]
    exact hseason
  · unfold hasBeenScrapedToday at hscr ⊢
    rw [← hdate]
    exact hscr
  · omega

/-- Mid-January instant 2025-01-15T16:00Z, which is 09:00 on 2025-01-15
in a UTC-7 resort timezone. -/
def tMorning : Minutes := daysFromCivil ⟨2025, 1, 15⟩ * 1440 + 16 * 60

/-- Six hours after tMorning: 15:00 local, same local day. -/
def tAfternoon : Minutes := tMorning + 6 * 60

theorem shouldScrape_eligibility_witness :
    shouldScrapeResort cfgNov resortPlain DataType.terrain [] tAfternoon = true :=
  (shouldScrape_eligibility cfgNov resortPlain DataType.terrain [] tMorning).2.2
    tAfternoon (by decide) (by decide) (by decide)

/-- A resort configured only through the legacy url field, with no
terrainUrl. -/
def resortLegacyUrl : Resort :=
  ⟨"keystone", "Keystone", ⟨-420⟩, none, some "https://legacy", none, none, none, none⟩

/-- Counterexample to claim C1 as stated: for a resort whose terrain
page is configured only through the legacy url field, every other
eligibility conjunct holds (in season, no snapshot today, past the
target hour, and a terrain URL is configured in the claim's sense,
legacy field included), yet shouldScrapeResort returns false, because
its url check reads only resort.terrainUrl. -/
theorem shouldScrape_ignores_legacy_url_cex :
    shouldScrapeResort cfgNov resortLegacyUrl DataType.terrain [] tMorning = false ∧
    isResortInSeason cfgNov resortLegacyUrl tMorning = true ∧
    (resortLegacyUrl.terrainUrl.isSome || resortLegacyUrl.url.isSome) = true ∧
    hasBeenScrapedToday [] resortLegacyUrl DataType.terrain tMorning = false ∧
    effectiveTargetHour cfgNov resortLegacyUrl ≤
      getResortLocalHour tMorning resortLegacyUrl.timezone := by
  refine ⟨by decide, by decide, by decide, by decide, by decide⟩

/-- Evening instant 2025-01-02T01:00Z, which is 18:00 on 2025-01-01 in a
UTC-7 resort timezone: the UTC date has already advanced past the
resort-local date. -/
def tEvening : Minutes := daysFromCivil ⟨2025, 1, 2⟩ * 1440 + 60

/-- Claim C4 fails on the code: hasBeenScrapedToday checks a file named
by the resort-local date, but saveResortData writes the snapshot under
getTodayDate(), the UTC date.  At 2025-01-02T01:00Z in a UTC-7 resort
(local 2025-01-01 18:00) an eligible scrape writes the 2025-01-02 file,
and re-evaluating shouldScrapeResort at the same instant with otherwise
identical inputs still returns true, where the claim requires false.
The snapshot also poisons the next local day's already-scraped guard. -/
theorem snapshot_date_key_mismatch_bug :
    shouldScrapeResort cfgNov resortPlain DataType.terrain [] tEvening = true ∧
    shouldScrapeResort cfgNov resortPlain DataType.terrain
        (saveResortDataStore [] resortPlain tEvening) tEvening = true ∧
    getTodayDate tEvening ≠ getResortLocalDate tEvening resortPlain.timezone ∧
    getResortLocalDate tEvening resortPlain.timezone = ⟨2025, 1, 1⟩ ∧
    getTodayDate tEvening = ⟨2025, 1, 2⟩ := by
  refine ⟨by decide, by decide, by decide, by decide, by decide⟩

/-! Streak lemmas. -/

theorem currentStreakLoop_eq_takeWhile (l : List TrailRecord) :
    currentStreakLoop l
      = ((l.map fun r => truthyStr r.grooming_status).takeWhile (fun b => b)).length := by
  induction l with
  | nil => rfl
  | cons r rs ih =>
      cases hg : truthyStr r.grooming_status with
      | true => simp [currentStreakLoop, hg, List.takeWhile_cons, ih]
      | false => simp [currentStreakLoop, hg, List.takeWhile_cons]

/-- Claim C5 as amended: currentStreak counts the consecutive rows with
a truthy grooming status from the top of the date-descending sort,
stopping at the first row without one; it is a function of the ordered
sequence of grooming-status flags alone, so a gap in calendar dates
between successive rows is skipped over, not treated as an ungroomed
day. -/
theorem currentStreak_counts_consecutive_rows (records : List TrailRecord) :
    (calculateGroomingStreaks records).currentStreak
      = (((sortByDateDesc records).map fun r => truthyStr r.grooming_status).takeWhile
          (fun b => b)).length := by
  unfold calculateGroomingStreaks
  cases he : records.isEmpty with
  | true =>
      obtain rfl := List.isEmpty_iff.mp he
      rfl
  | false =>
      simp only [he, Bool.false_eq_true, if_false]
      exact currentStreakLoop_eq_takeWhile _

/-- Two groomed rows two calendar days apart: 2025-01-09 has no row. -/
def rowsWithGap : List TrailRecord :=
  [⟨"2025-01-10", some "Open", some "Groomed", none⟩,
    ⟨"2025-01-08", some "Open", some "Groomed", none⟩]

/-- Counterexample to claim C5 as stated: with groomed rows on
2025-01-10 and 2025-01-08 and no row for 2025-01-09, the code computes
currentStreak = 2, skipping the missing day, while the claimed
gap-breaks-the-streak semantics (specCurrentStreak, modelled from the
spec's words) yields 1. -/
theorem currentStreak_gap_cex :
    (calculateGroomingStreaks rowsWithGap).currentStreak = 2 ∧
    specCurrentStreak rowsWithGap = 1 ∧
    dayNumberOfDateString "2025-01-08" + 2 = dayNumberOfDateString "2025-01-10" := by
  refine ⟨by decide, by decide, by decide⟩

/-! Sorting of records with pairwise-distinct dates is canonical. -/

/-- Strict form of the descending record order. -/
def recordStrictDesc (a b : TrailRecord) : Prop :=
  b.date.data < a.date.data

theorem sortByDateDesc_sorted (l : List TrailRecord) :
    List.Sorted recordDescOrder (sortByDateDesc l) :=
  List.sorted_insertionSort _ l

theorem sortByDateDesc_perm (l : List TrailRecord) : (sortByDateDesc l).Perm l :=
  List.perm_insertionSort _ l

theorem sorted_strict_of_nodup_dates {l : List TrailRecord}
    (hs : List.Sorted recordDescOrder l) (hn : (l.map TrailRecord.date).Nodup) :
    List.Sorted recordStrictDesc l := by
  have hne : l.Pairwise fun a b => a.date ≠ b.date := List.pairwise_map.mp hn
  exact (hs.and hne).imp fun {a b} hab =>
    lt_of_le_of_ne hab.1 fun hdd => hab.2 (String.ext hdd).symm

theorem sortByDateDesc_eq_of_perm {l₁ l₂ : List TrailRecord} (hp : l₁.Perm l₂)
    (hd : (l₁.map TrailRecord.date).Nodup) :
    sortByDateDesc l₁ = sortByDateDesc l₂ := by
  have hperm : (sortByDateDesc l₁).Perm (sortByDateDesc l₂) :=
    (sortByDateDesc_perm l₁).trans (hp.trans (sortByDateDesc_perm l₂).symm)
  have hd₁ : ((sortByDateDesc l₁).map TrailRecord.date).Nodup :=
    (((sortByDateDesc_perm l₁).map TrailRecord.date).symm).nodup hd
  have hd₂ : ((sortByDateDesc l₂).map TrailRecord.date).Nodup :=
    (((sortByDateDesc_perm l₂).map TrailRecord.date).symm).nodup
      ((hp.map TrailRecord.date).nodup hd)
  haveI : IsAntisymm TrailRecord recordStrictDesc :=
    ⟨fun _ _ h1 h2 => absurd (lt_trans h1 h2) (lt_irrefl _)⟩
  exact List.eq_of_perm_of_sorted hperm
    (sorted_strict_of_nodup_dates (sortByDateDesc_sorted l₁) hd₁)
    (sorted_strict_of_nodup_dates (sortByDateDesc_sorted l₂) hd₂)

/-! The day-of-week tally counts occurrences, so it is order-free. -/

theorem foldl_bump_apply (f : TrailRecord → Nat) (l : List TrailRecord) :
    ∀ (acc : Nat → Nat × Nat) (j : Nat),
      (l.foldl (fun c r => bumpCounts c (f r) (truthyStr r.grooming_status)) acc) j
        = ((acc j).1 + l.countP (fun r => decide (f r = j) && truthyStr r.grooming_status),
            (acc j).2 + l.countP (fun r => decide (f r = j))) := by
  induction l with
  | nil => intro acc j; simp
  | cons r rs ih =>
      intro acc j
      rw [List.foldl_cons, ih, List.countP_cons, List.countP_cons]
      by_cases hj : f r = j
      · cases hg : truthyStr r.grooming_status <;>
          simp [bumpCounts, hj, hg, Prod.ext_iff] <;> omega
      · have hj2 : ¬ (j = f r) := fun hh => hj hh.symm
        simp [bumpCounts, hj, hj2]

theorem tallyDayOfWeek_apply (f : TrailRecord → Nat) (l : List TrailRecord) (j : Nat) :
    tallyDayOfWeek f l j
      = (l.countP (fun r => decide (f r = j) && truthyStr r.grooming_status),
          l.countP (fun r => decide (f r = j))) := by
  unfold tallyDayOfWeek
  rw [foldl_bump_apply]
  simp

theorem calculateDayOfWeekStatsWith_perm (f : TrailRecord → Nat)
    {l₁ l₂ : List TrailRecord} (hp : l₁.Perm l₂) :
    calculateDayOfWeekStatsWith f l₁ = calculateDayOfWeekStatsWith f l₂ := by
  unfold calculateDayOfWeekStatsWith
  apply List.map_congr_left
  intro i _
  rw [tallyDayOfWeek_apply, tallyDayOfWeek_apply, hp.countP_eq, hp.countP_eq]

/-- Claim C6: over record sets with pairwise-distinct dates, the
grooming streaks (current, longest, last-groomed date), the grooming
percentage, and the day-of-week statistics are invariant under any
permutation of the input rows. -/
theorem trailStats_perm_invariant (hostOff : Int) {l₁ l₂ : List TrailRecord}
    (hp : l₁.Perm l₂) (hd : (l₁.map TrailRecord.date).Nodup) :
    calculateGroomingStreaks l₁ = calculateGroomingStreaks l₂ ∧
    groomingPercentage l₁ = groomingPercentage l₂ ∧
    calculateDayOfWeekStatsSki hostOff l₁ = calculateDayOfWeekStatsSki hostOff l₂ := by
  refine ⟨?_, ?_, calculateDayOfWeekStatsWith_perm _ hp⟩
  · have he : l₁.isEmpty = l₂.isEmpty := by
      have := hp.length_eq
      cases l₁ <;> cases l₂ <;> simp_all
    unfold calculateGroomingStreaks
    rw [he, sortByDateDesc_eq_of_perm hp hd]
  · unfold groomingPercentage daysTracked daysGroomed
    have hf : (l₁.filter fun r => truthyStr r.grooming_status).length
        = (l₂.filter fun r => truthyStr r.grooming_status).length := by
      rw [← List.countP_eq_length_filter, ← List.countP_eq_length_filter, hp.countP_eq]
    rw [hp.length_eq, hf]

/-- The gap rows in the opposite input order. -/
def rowsWithGapSwapped : List TrailRecord :=
  [⟨"2025-01-08", some "Open", some "Groomed", none⟩,
    ⟨"2025-01-10", some "Open", some "Groomed", none⟩]

theorem trailStats_perm_invariant_witness :
    calculateGroomingStreaks rowsWithGap = calculateGroomingStreaks rowsWithGapSwapped ∧
    calculateDayOfWeekStatsSki 0 rowsWithGap
      = calculateDayOfWeekStatsSki 0 rowsWithGapSwapped := by
  have hp : rowsWithGap.Perm rowsWithGapSwapped := by
    unfold rowsWithGap rowsWithGapSwapped
    exact List.Perm.swap _ _ _
  have h := trailStats_perm_invariant 0 hp (by decide)
  exact ⟨h.1, h.2.2⟩

/-! Insert-or-replace table lemmas. -/

theorem countKey_insertOrReplace (table : List TerrainStatusRow)
    (row : TerrainStatusRow) (k : RowKey) :
    countKey (insertOrReplace table row) k
      = if k = rowKey row then 1 else countKey table k := by
  unfold countKey insertOrReplace
  rw [List.countP_append]
  by_cases hk : k = rowKey row
  · subst hk
    have h0 : (table.filter fun r => !(decide (rowKey r = rowKey row))).countP
        (fun r => decide (rowKey r = rowKey row)) = 0 := by
      rw [List.countP_eq_zero]
      intro a ha
      have h2 := (List.mem_filter.mp ha).2
      simp only [Bool.not_eq_true', decide_eq_false_iff_not] at h2
      simp [h2]
    simp [h0]
  · have h1 : List.countP (fun r => decide (rowKey r = k)) [row] = 0 := by
      have : ¬ (rowKey row = k) := fun hh => hk hh.symm
      simp [this]
    have h2 : (table.filter fun r => !(decide (rowKey r = rowKey row))).countP
        (fun r => decide (rowKey r = k))
        = table.countP (fun r => decide (rowKey r = k)) := by
      rw [List.countP_filter]
      have hfun : (fun r => decide (rowKey r = k) && !(decide (rowKey r = rowKey row)))
          = fun r => decide (rowKey r = k) := by
        funext a
        by_cases h : rowKey a = k
        · have : ¬ (rowKey a = rowKey row) := fun hh => hk (h.symm.trans hh)
          simp [h, this, hk]
        · simp [h]
      rw [hfun]
    simp [hk, h1, h2]

theorem countKey_foldl_insertOrReplace (rows : List TerrainStatusRow) :
    ∀ (table : List TerrainStatusRow) (k : RowKey),
      countKey (rows.foldl insertOrReplace table) k
        = if k ∈ rows.map rowKey then 1 else countKey table k := by
  induction rows with
  | nil =>
      intro table k
      simp
  | cons r rs ih =>
      intro table k
      rw [List.foldl_cons, ih, countKey_insertOrReplace]
      by_cases hmem : k ∈ rs.map rowKey
      · simp [hmem]
      · by_cases hk : k = rowKey r
        · simp [hmem, hk]
        · simp [hmem, hk]

/-- Claim C7 (the relational store itself is not among the sources; the
ingest is modelled from spec section 4.4 and the DATABASE.md schema):
ingesting the same terrain payload twice leaves exactly one row per
(resort_id, date, item_name) key of the payload — already after the
first ingest, and still after the second, which replaces rather than
appends. -/
theorem ingestTerrain_idempotent (table : List TerrainStatusRow) (resortId : Nat)
    (date : String) (areas : List GroomingArea) (k : RowKey)
    (hk : k ∈ (flattenTerrainPayload resortId date areas).map rowKey) :
    countKey (ingestTerrain (ingestTerrain table resortId date areas)
        resortId date areas) k = 1 ∧
    countKey (ingestTerrain table resortId date areas) k = 1 := by
  unfold ingestTerrain
  rw [countKey_foldl_insertOrReplace, countKey_foldl_insertOrReplace]
  simp [hk]

/-- A one-area payload with one trail and one lift. -/
def exAreas : List GroomingArea :=
  [⟨"Front Side",
    [⟨"Born Free", some "Open", some "Groomed", none⟩],
    [⟨"Gondola One", some "Open", none, none⟩]⟩]

theorem ingestTerrain_idempotent_witness :
    countKey (ingestTerrain (ingestTerrain [] 1 "2025-01-10" exAreas)
        1 "2025-01-10" exAreas) (1, "2025-01-10", "Born Free") = 1 :=
  (ingestTerrain_idempotent [] 1 "2025-01-10" exAreas
    (1, "2025-01-10", "Born Free") (by decide)).1

/-! Fold-min and fold-max lemmas for the operating window. -/

theorem foldl_min_le_init : ∀ (xs : List Nat) (a : Nat), xs.foldl min a ≤ a := by
  intro xs
  induction xs with
  | nil => intro a; simp
  | cons x xs ih =>
      intro a
      rw [List.foldl_cons]
      exact le_trans (ih _) (min_le_left _ _)

theorem foldl_min_le_mem : ∀ (xs : List Nat) (a x : Nat), x ∈ xs → xs.foldl min a ≤ x := by
  intro xs
  induction xs with
  | nil =>
      intro a x hx
      simp at hx
  | cons y ys ih =>
      intro a x hx
      rw [List.foldl_cons]
      rcases List.mem_cons.mp hx with rfl | hx2
      · exact le_trans (foldl_min_le_init ys _) (min_le_right _ _)
      · exact ih _ _ hx2

theorem foldl_min_mem : ∀ (xs : List Nat) (a : Nat),
    xs.foldl min a = a ∨ xs.foldl min a ∈ xs := by
  intro xs
  induction xs with
  | nil =>
      intro a
      left
      rfl
  | cons x xs ih =>
      intro a
      rw [List.foldl_cons]
      rcases ih (min a x) with h | h
      · rcases min_choice a x with ha | hx
        · left
          rw [h, ha]
        · right
          rw [h, hx]
          exact List.mem_cons_self _ _
      · right
        exact List.mem_cons_of_mem _ h

theorem foldl_max_init_le : ∀ (xs : List Nat) (a : Nat), a ≤ xs.foldl max a := by
  intro xs
  induction xs with
  | nil => intro a; simp
  | cons x xs ih =>
      intro a
      rw [List.foldl_cons]
      exact le_trans (le_max_left _ _) (ih _)

theorem foldl_max_mem_le : ∀ (xs : List Nat) (a x : Nat), x ∈ xs → x ≤ xs.foldl max a := by
  intro xs
  induction xs with
  | nil =>
      intro a x hx
      simp at hx
  | cons y ys ih =>
      intro a x hx
      rw [List.foldl_cons]
      rcases List.mem_cons.mp hx with rfl | hx2
      · exact le_trans (le_max_right _ _) (foldl_max_init_le ys _)
      · exact ih _ _ hx2

theorem foldl_max_mem : ∀ (xs : List Nat) (a : Nat),
    xs.foldl max a = a ∨ xs.foldl max a ∈ xs := by
  intro xs
  induction xs with
  | nil =>
      intro a
      left
      rfl
  | cons x xs ih =>
      intro a
      rw [List.foldl_cons]
      rcases ih (max a x) with h | h
      · rcases max_choice a x with ha | hx
        · left
          rw [h, ha]
        · right
          rw [h, hx]
          exact List.mem_cons_self _ _
      · right
        exact List.mem_cons_of_mem _ h

theorem jsMathMin_spec {xs : List Nat} (h : xs ≠ []) :
    (jsMathMin xs).getD 0 ∈ xs ∧ ∀ x ∈ xs, (jsMathMin xs).getD 0 ≤ x := by
  obtain ⟨y, ys, rfl⟩ := List.exists_cons_of_ne_nil h
  unfold jsMathMin
  simp only [Option.getD_some]
  constructor
  · rcases foldl_min_mem ys y with h1 | h1
    · rw [h1]
      exact List.mem_cons_self _ _
    · exact List.mem_cons_of_mem _ h1
  · intro x hx
    rcases List.mem_cons.mp hx with rfl | hx2
    · exact foldl_min_le_init ys x
    · exact foldl_min_le_mem ys y x hx2

theorem jsMathMax_spec {xs : List Nat} (h : xs ≠ []) :
    (jsMathMax xs).getD 0 ∈ xs ∧ ∀ x ∈ xs, x ≤ (jsMathMax xs).getD 0 := by
  obtain ⟨y, ys, rfl⟩ := List.exists_cons_of_ne_nil h
  unfold jsMathMax
  simp only [Option.getD_some]
  constructor
  · rcases foldl_max_mem ys y with h1 | h1
    · rw [h1]
      exact List.mem_cons_self _ _
    · exact List.mem_cons_of_mem _ h1
  · intro x hx
    rcases List.mem_cons.mp hx with rfl | hx2
    · exact foldl_max_init_le ys x
    · exact foldl_max_mem_le ys y x hx2

/-- Claim C8 as amended: when at least one lift has a configured open
time and at least one a configured close time, the window is the
minimum open time to the maximum close time, and isOpen holds exactly
when the local time lies in that interval, both ends inclusive; for a
nonempty lift list missing all open times or all close times the result
is closed with the 'No operating hours available' reason, while the
empty (or null) lift list yields the distinct 'No lift data available'
reason. -/
theorem liftWindow_spec (lifts : List Lift) (cur : Nat) :
    ((openTimesOf lifts ≠ [] ∧ closeTimesOf lifts ≠ []) →
      ((getLiftOperatingWindow lifts cur).openTime
          = some ((jsMathMin (openTimesOf lifts)).getD 0) ∧
        (jsMathMin (openTimesOf lifts)).getD 0 ∈ openTimesOf lifts ∧
        (∀ x ∈ openTimesOf lifts, (jsMathMin (openTimesOf lifts)).getD 0 ≤ x) ∧
        (getLiftOperatingWindow lifts cur).closeTime
          = some ((jsMathMax (closeTimesOf lifts)).getD 0) ∧
        (jsMathMax (closeTimesOf lifts)).getD 0 ∈ closeTimesOf lifts ∧
        (∀ x ∈ closeTimesOf lifts, x ≤ (jsMathMax (closeTimesOf lifts)).getD 0) ∧
        ((getLiftOperatingWindow lifts cur).isOpen = true ↔
          (jsMathMin (openTimesOf lifts)).getD 0 ≤ cur ∧
            cur ≤ (jsMathMax (closeTimesOf lifts)).getD 0))) ∧
    (lifts ≠ [] → (openTimesOf lifts = [] ∨ closeTimesOf lifts = []) →
      getLiftOperatingWindow lifts cur
        = ⟨false, none, none, WindowReason.noOperatingHours⟩) := by
  constructor
  · rintro ⟨hO, hC⟩
    have hlifts : lifts ≠ [] := by
      intro h
      exact hO (by simp [openTimesOf, h])
    have hle : lifts.isEmpty = false := by
      simpa using hlifts
    have hOe : (openTimesOf lifts).isEmpty = false := by
      simpa using hO
    have hCe : (closeTimesOf lifts).isEmpty = false := by
      simpa using hC
    have hwin : getLiftOperatingWindow lifts cur =
        ⟨decide ((jsMathMin (openTimesOf lifts)).getD 0 ≤ cur) &&
            decide (cur ≤ (jsMathMax (closeTimesOf lifts)).getD 0),
          some ((jsMathMin (openTimesOf lifts)).getD 0),
          some ((jsMathMax (closeTimesOf lifts)).getD 0),
          if (decide ((jsMathMin (openTimesOf lifts)).getD 0 ≤ cur) &&
              decide (cur ≤ (jsMathMax (closeTimesOf lifts)).getD 0)) = true then
            WindowReason.withinHours
          else WindowReason.outsideHours⟩ := by
      simp [getLiftOperatingWindow, hle, hOe, hCe]
    obtain ⟨hmemO, hminO⟩ := jsMathMin_spec hO
    obtain ⟨hmemC, hmaxC⟩ := jsMathMax_spec hC
    rw [hwin]
    refine ⟨rfl, hmemO, hminO, rfl, hmemC, hmaxC, ?_⟩
    simp
  · intro hlifts hOC
    have hle : lifts.isEmpty = false := by
      simpa using hlifts
    have hor : ((openTimesOf lifts).isEmpty || (closeTimesOf lifts).isEmpty) = true := by
      rcases hOC with h | h <;> simp [h]
    simp [getLiftOperatingWindow, hle, hor]

/-- Counterexample to claim C8 as stated: the empty lift list satisfies
"no lift reports an open time", yet getLiftOperatingWindow returns the
'No lift data available' reason, not 'No operating hours available'. -/
theorem liftWindow_empty_list_cex :
    getLiftOperatingWindow [] 540 = ⟨false, none, none, WindowReason.noLiftData⟩ ∧
    WindowReason.noLiftData ≠ WindowReason.noOperatingHours ∧
    openTimesOf ([] : List Lift) = [] := by
  refine ⟨by decide, by decide, rfl⟩

/-- The spec's worked example: open times 08:00 and 08:30, close times
16:00 and 15:30. -/
def exLifts : List Lift :=
  [⟨"Lift A", some (8, 0), some (16, 0)⟩, ⟨"Lift B", some (8, 30), some (15, 30)⟩]

theorem liftWindow_spec_witness :
    (getLiftOperatingWindow exLifts 540).openTime = some 480 ∧
    (getLiftOperatingWindow exLifts 540).closeTime = some 960 ∧
    (getLiftOperatingWindow exLifts 540).isOpen = true := by
  obtain ⟨h1, _, _, h4, _, _, h7⟩ := (liftWindow_spec exLifts 540).1 ⟨by decide, by decide⟩
  refine ⟨?_, ?_, h7.mpr ⟨by decide, by decide⟩⟩
  · rw [h1]
    decide
  · rw [h4]
    decide

/-! Weekday-index lemmas for the two calculateDayOfWeekStats copies. -/

theorem dayIndexUTCParse_eq_localParse (hostOff : Int) (h0 : 0 ≤ hostOff)
    (h1 : hostOff < 1440) (s : String) :
    dayIndexUTCParse hostOff s = dayIndexLocalParse s := by
  unfold dayIndexUTCParse dayIndexLocalParse
  have hdiv : (Int.ofNat (daysFromCivil (parseISODate s)) * 1440 + hostOff) / 1440
      = Int.ofNat (daysFromCivil (parseISODate s)) := by
    rw [add_comm, mul_comm, Int.add_mul_ediv_left _ _ (by norm_num : (1440 : Int) ≠ 0),
      Int.ediv_eq_zero_of_lt h0 h1, zero_add]
  simp only [hdiv]

/-- Claim C9 as amended: the two implementations of
calculateDayOfWeekStats agree for every record list whenever the host
process runs at a non-negative UTC offset (UTC itself included), since
then UTC midnight of a date still falls on that date in host-local
time; at negative offsets they differ, because new Date(record.date)
lands on the previous host-local day. -/
theorem dayOfWeekStats_impls_agree_nonneg_offset (hostOff : Int)
    (records : List TrailRecord) (h0 : 0 ≤ hostOff) (h1 : hostOff < 1440) :
    calculateDayOfWeekStatsSki hostOff records = calculateDayOfWeekStatsGen records := by
  unfold calculateDayOfWeekStatsSki calculateDayOfWeekStatsGen
  exact congrArg (fun f => calculateDayOfWeekStatsWith f records)
    (funext fun r => dayIndexUTCParse_eq_localParse hostOff h0 h1 r.date)

/-- One groomed record dated Friday 2025-01-10. -/
def rowFriday : List TrailRecord :=
  [⟨"2025-01-10", some "Open", some "Groomed", none⟩]

/-- Counterexample to claim C9 as stated: on a host at UTC-7 (offset
-420 minutes, e.g. America/Denver), the ski-scraper.js variant counts
2025-01-10 under Thursday (index 4) while the generate-trail-data.js
variant counts it under Friday (index 5), so the weekday statistics
differ. -/
theorem dayOfWeekStats_impls_differ_cex :
    calculateDayOfWeekStatsSki (-420) rowFriday ≠ calculateDayOfWeekStatsGen rowFriday ∧
    dayIndexUTCParse (-420) "2025-01-10" = 4 ∧
    dayIndexLocalParse "2025-01-10" = 5 := by
  refine ⟨by decide, by decide, by decide⟩

theorem dayOfWeekStats_impls_agree_witness :
    calculateDayOfWeekStatsSki 0 rowFriday = calculateDayOfWeekStatsGen rowFriday :=
  dayOfWeekStats_impls_agree_nonneg_offset 0 rowFriday (by decide) (by decide)

/-! Aggregate lemmas. -/

theorem foldl_updLatest_isSome (names : String → String) (l : List ScrapeOutcome) :
    ∀ (acc : String → Option LatestEntry) (k : String),
      ((l.foldl (updLatest names) acc) k).isSome = true ↔
        (∃ r ∈ l, r.resortKey = k ∧ r.terrain.isSome = true) ∨ (acc k).isSome = true := by
  induction l with
  | nil =>
      intro acc k
      simp
  | cons r rs ih =>
      intro acc k
      rw [List.foldl_cons, ih]
      cases hr : r.terrain with
      | none => simp [updLatest, hr]
      | some td =>
          by_cases hk : k = r.resortKey
          · simp [updLatest, hr, hk]
          · have hk2 : ¬ (r.resortKey = k) := fun hh => hk hh.symm
            simp [updLatest, hr, hk, hk2]

/-- Claim C10: the all-resorts terrain aggregate is run-scoped.  After a
run with at least one scraped resort, data/latest.json holds an entry
for exactly the resort keys whose terrain scrape succeeded in that run
— entries of skipped or failed resorts are not retained from any
previous aggregate — and a run that scraped nothing leaves the previous
aggregate unchanged. -/
theorem latestAggregate_run_scoped (names : String → String)
    (prev : String → Option LatestEntry) (scrapedData : List ScrapeOutcome)
    (k : String) :
    (scrapedData ≠ [] →
      (((mainAggregateStep prev names scrapedData) k).isSome = true ↔
        ∃ r ∈ scrapedData, r.resortKey = k ∧ r.terrain.isSome = true)) ∧
    (scrapedData = [] → mainAggregateStep prev names scrapedData = prev) := by
  constructor
  · intro hne
    have hlen : scrapedData.length > 0 := List.length_pos.mpr hne
    unfold mainAggregateStep
    rw [if_pos hlen]
    unfold generateLatestFile
    rw [foldl_updLatest_isSome]
    simp
  · intro he
    subst he
    simp [mainAggregateStep]

/-- A previous aggregate holding a stale entry for the keystone key. -/
def prevAggregate : String → Option LatestEntry :=
  fun k => if k = "keystone" then some ⟨⟨2024, 12, 31⟩, "Keystone", []⟩ else none

/-- A run in which vail's terrain scrape succeeded and breck produced
only snow data. -/
def runOutcomes : List ScrapeOutcome :=
  [⟨"vail", some (⟨2025, 1, 15⟩, exAreas), none⟩,
    ⟨"breck", none, some ⟨2025, 1, 15⟩⟩]

theorem latestAggregate_run_scoped_witness :
    ((mainAggregateStep prevAggregate (fun _ => "Resort") runOutcomes) "vail").isSome
        = true ∧
    ((mainAggregateStep prevAggregate (fun _ => "Resort") runOutcomes)
        "keystone").isSome = false ∧
    mainAggregateStep prevAggregate (fun _ => "Resort") [] = prevAggregate := by
  refine ⟨?_, ?_, ?_⟩
  · exact ((latestAggregate_run_scoped (fun _ => "Resort") prevAggregate runOutcomes
        "vail").1 (List.cons_ne_nil _ _)).mpr
      ⟨⟨"vail", some (⟨2025, 1, 15⟩, exAreas), none⟩, List.mem_cons_self _ _, rfl, rfl⟩
  · have h := (latestAggregate_run_scoped (fun _ => "Resort") prevAggregate runOutcomes
      "keystone").1 (List.cons_ne_nil _ _)
    exact Bool.eq_false_iff.mpr fun ht => absurd (h.mp ht) (by decide)
  · exact (latestAggregate_run_scoped (fun _ => "Resort") prevAggregate [] "x").2 rfl

end SkiRun
